import Mathlib

/-!
Verification of the stylify CSS-record compiler core.

The definitions below are a shallow embedding of
`src/packages/stylify/src/Compiler/CssRecord.ts`.  The file holds two
classes: the current named-export `CssRecord` (dirty-flag cached CSS
rendering) and a legacy default-export `CssRecord` (embedded in the
`Legacy` namespace below).  JavaScript objects used as string maps are
modelled as association lists in insertion order; `undefined`/`null`
fields are modelled as `Option`.  The process-wide hook registry is
modelled as an explicit function argument (the fold of all listeners;
`idHook` is the registry with no listeners, which returns the payload
unchanged).  The selector mangler lives outside this file's sources and
is passed as a function argument `mangle`.
-/

/-- Property maps (`Record<string, string>` in the source); values are
modelled as strings (numbers are stringified on render anyway). -/
abbrev PropsMap := List (String × String)

/-- Association-list lookup keyed by strings, mirroring JavaScript
property access `obj[k]` returning `undefined` when the key is absent. -/
def alookup {β : Type} (k : String) : List (String × β) → Option β
  | [] => none
  | kv :: rest => if kv.1 = k then some kv.2 else alookup k rest

/-- JavaScript object spread `{...a, ...b}`: keys of `a` keep their
position but take `b`'s value when `b` also has the key; keys of `b`
absent from `a` are appended in `b`'s order. -/
def spread (a b : PropsMap) : PropsMap :=
  a.map (fun kv => match alookup kv.1 b with
    | some v => (kv.1, v)
    | none => kv)
  ++ b.filter (fun kv => (alookup kv.1 a).isNone)

/-- The character class `[-_a-zA-Z\d]` of the source's escaping regexes. -/
def isAllowedChar (c : Char) : Bool :=
  c.isAlpha || c.isDigit || c == '-' || c == '_'

/-- `selector.replace(/([^-_a-zA-Z\d])/g, '\\$1')` on a character list. -/
def escapeChars : List Char → List Char
  | [] => []
  | c :: rest =>
    if isAllowedChar c then c :: escapeChars rest
    else '\\' :: c :: escapeChars rest

/-- The source's global backslash-escaping replace on a string. -/
def escapeSelector (s : String) : String :=
  String.mk (escapeChars s.data)

/-- `(/^\d/gm).test(selector[0])`: whether the first character of the
(escaped) selector is a decimal digit (`false` on the empty string,
matching the regex test against the string "undefined"). -/
def headIsDigit (s : String) : Bool :=
  match s.data with
  | [] => false
  | c :: _ => c.isDigit

/-- The full canonical selector stored by `configure`: global escape,
then a literal `\3` prefix when the escaped text starts with a digit. -/
def fullEscape (s : String) : String :=
  let esc := escapeSelector s
  if headIsDigit esc then ("\\3") ++ esc else esc

/-- The hook pipeline for the property-addition extension point: the
fold of every listener registered under `cssRecord:addProperty`. -/
abbrev PropsHook := PropsMap → PropsMap

/-- The hook registry with no listeners: `callHook` returns the original
payload unchanged. -/
def idHook : PropsHook := fun l => l

/-- The current (named-export) `CssRecord` class state. -/
structure CssRecord where
  changed : Bool
  cache : Option String
  shouldBeGenerated : Bool
  selector : Option String
  mangledSelector : Option String
  screenId : Option Int
  scope : Option String
  customSelectors : List String
  components : List (String × List String)
  properties : PropsMap
  pseudoClasses : List String
deriving DecidableEq, Repr

/-- Field initializers of the class (state before `configure` runs). -/
def emptyCssRecord : CssRecord :=
  { changed := false
    cache := none
    shouldBeGenerated := false
    selector := none
    mangledSelector := none
    screenId := none
    scope := none
    customSelectors := []
    components := []
    properties := []
    pseudoClasses := [] }

/-- `CssRecordConfigInterface`: every field optional; `none` models an
absent key of the config object. -/
structure CssRecordConfig where
  screenId : Option Int := none
  selector : Option String := none
  properties : Option PropsMap := none
  customSelectors : Option (List String) := none
  components : Option (List (String × List String)) := none
  pseudoClasses : Option (List String) := none
  scope : Option String := none
  shouldBeGenerated : Option Bool := none
deriving DecidableEq

/-- `!Object.keys(config).length`: no key is present. -/
def configEmpty (c : CssRecordConfig) : Bool :=
  c.screenId.isNone && c.selector.isNone && c.properties.isNone &&
  c.customSelectors.isNone && c.components.isNone && c.pseudoClasses.isNone &&
  c.scope.isNone && c.shouldBeGenerated.isNone

/-- `CssRecord.addProperty`: early return when the key is already
present; otherwise the candidate pair runs through the hook pipeline and
the result is spread-merged over the existing properties. -/
def addProperty (hook : PropsHook) (property value : String) (st : CssRecord) : CssRecord :=
  if (alookup property st.properties).isSome then st
  else
    { st with
      changed := true
      properties := spread st.properties (hook [(property, value)]) }

/-- `CssRecord.addProperties`: the loop body sets `changed = true`
before each `addProperty` call, even when that call is a no-op. -/
def addProperties (hook : PropsHook) (props : PropsMap) (st : CssRecord) : CssRecord :=
  props.foldl (fun s kv => addProperty hook kv.1 kv.2 { s with changed := true }) st

/-- `CssRecord.addPseudoClasses` (list overload). -/
def addPseudoClasses (pcs : List String) (st : CssRecord) : CssRecord :=
  pcs.foldl
    (fun s pc =>
      if pc ∈ s.pseudoClasses then s
      else { s with changed := true, pseudoClasses := s.pseudoClasses ++ [pc] })
    st

/-- `CssRecord.addCustomSelector`: appends when absent; never touches
the `changed` flag. -/
def addCustomSelector (selector : String) (st : CssRecord) : CssRecord :=
  if selector ∈ st.customSelectors then st
  else { st with customSelectors := st.customSelectors ++ [selector] }

/-- `CssRecord.addComponent`: escapes the key, first write wins. -/
def addComponent (selector : String) (selectorsChain : List String) (st : CssRecord) : CssRecord :=
  let esc := escapeSelector selector
  if (alookup esc st.components).isSome then st
  else { st with changed := true, components := st.components ++ [(esc, selectorsChain)] }

/-- `CssRecord.addComponents`. -/
def addComponents (cmps : List (String × List String)) (st : CssRecord) : CssRecord :=
  cmps.foldl (fun s kv => addComponent kv.1 kv.2 s) st

/-- `config.scope || null`: an empty string is falsy and collapses to
`null`. -/
def jsOrNone (o : Option String) : Option String :=
  match o with
  | some s => if s = "" then none else some s
  | none => none

/-- `CssRecord.configure`.  The early return fires on an empty config
object.  A non-empty config without a `selector` key reaches
`config.selector.replace(...)` on `undefined` and throws a `TypeError`
(modelled as `Except.error`; mutations preceding the throw are not
observable on the record because the exception escapes to the caller). -/
def configure (mangle : String → String) (hook : PropsHook) (config : CssRecordConfig)
    (st : CssRecord) : Except String CssRecord :=
  if configEmpty config then Except.ok st
  else
    match config.selector with
    | none => Except.error ("TypeError: Cannot read properties of undefined (reading replace)")
    | some sel =>
      let st := { st with
        mangledSelector := some (mangle sel)
        screenId := config.screenId
        selector := some (fullEscape sel)
        scope := jsOrNone config.scope
        shouldBeGenerated := config.shouldBeGenerated.getD st.shouldBeGenerated }
      let st := addComponents (config.components.getD []) st
      let st := addProperties hook (config.properties.getD []) st
      let st := addPseudoClasses (config.pseudoClasses.getD []) st
      Except.ok { st with changed := true }

/-- `CssRecordCompileParametersConfig` (`mangleSelectors` optional and
falsy when absent, so it is modelled as a plain `Bool`). -/
structure RenderConfig where
  minimize : Bool
  mangleSelectors : Bool := false
deriving DecidableEq

/-- The data fields `generateCss` reads: everything except the
`changed` flag and the `cache` member. -/
structure RecordData where
  shouldBeGenerated : Bool
  selector : Option String
  mangledSelector : Option String
  screenId : Option Int
  scope : Option String
  customSelectors : List String
  components : List (String × List String)
  properties : PropsMap
  pseudoClasses : List String
deriving DecidableEq, Repr

/-- Projection of a record onto its render-relevant data. -/
def recordData (r : CssRecord) : RecordData :=
  { shouldBeGenerated := r.shouldBeGenerated
    selector := r.selector
    mangledSelector := r.mangledSelector
    screenId := r.screenId
    scope := r.scope
    customSelectors := r.customSelectors
    components := r.components
    properties := r.properties
    pseudoClasses := r.pseudoClasses }

/-- JavaScript template-literal stringification of a nullable string:
`null` prints as "null". -/
def optStr (o : Option String) : String :=
  match o with
  | some s => s
  | none => "null"

/-- JavaScript whitespace class `\s` (ASCII part; the chains this is
applied to are class lists, which are ASCII). -/
def isWsChar (c : Char) : Bool :=
  c == ' ' || c == '\t' || c == '\n' || c == '\r' || c == '\x0b' || c == '\x0c'

/-- Worker for `collapseWs`, structurally recursive on a fuel that
starts at the list length (each step consumes at least one character,
so the fuel never runs out on the initial call). -/
def collapseWsFuel : Nat → List Char → List Char
  | 0, l => l
  | _ + 1, [] => []
  | fuel + 1, c :: rest =>
    if isWsChar c && (match rest with | [] => false | d :: _ => isWsChar d) then
      ' ' :: collapseWsFuel fuel (rest.dropWhile isWsChar)
    else c :: collapseWsFuel fuel rest

/-- `replace(/\s\s+/g, ' ')`: every maximal run of two or more
whitespace characters is replaced by a single space. -/
def collapseWs (l : List Char) : List Char :=
  collapseWsFuel l.length l

/-- One entry of the `componentsSelectors` loop in `generateCss`.  The
source pops a singleton all-whitespace chain in place before testing
emptiness; the in-place pop is observationally equivalent to treating
such a chain as empty on every render. -/
def componentSelectorEntries (entry : String × List String) : List String :=
  let chain :=
    if entry.2.length = 1 ∧ (entry.2.headD ("")).data.all isWsChar then []
    else entry.2
  if chain.isEmpty then [entry.1]
  else chain.map (fun cs =>
    String.intercalate (".")
      ((String.mk (collapseWs cs.data)).splitOn (" ") ++ [entry.1]))

/-- The `componentsSelectors` array built by `generateCss`. -/
def componentSelectorsList (d : RecordData) : List String :=
  d.components.flatMap componentSelectorEntries

/-- The `customSelectors`/`classSelectors` pair after the pseudo-class
branch of `generateCss`.  The loop reassigns `customSelectors` on every
iteration (only the last pseudo-class survives for custom selectors)
while `classSelectors` accumulates. -/
def renderSelectorParts (cfg : RenderConfig) (d : RecordData) : List String × List String :=
  let sel := optStr (if cfg.mangleSelectors then d.mangledSelector else d.selector)
  let comps := componentSelectorsList d
  if d.pseudoClasses.isEmpty then (d.customSelectors, sel :: comps)
  else
    d.pseudoClasses.foldl
      (fun acc pc =>
        (d.customSelectors.map (fun s => s ++ (":") ++ pc),
         acc.2 ++ (sel ++ (":") ++ pc) :: comps.map (fun s => s ++ (":") ++ pc)))
      ([], [])

/-- The final `selectors` array of `generateCss`: scope prefix on the
custom selectors, scope prefix and a dot on the class selectors. -/
def renderSelectors (cfg : RenderConfig) (d : RecordData) : List String :=
  let scopePart := d.scope.getD ("")
  let parts := renderSelectorParts cfg d
  parts.1.map (fun s => scopePart ++ s)
  ++ parts.2.map (fun s => scopePart ++ (".") ++ s)

/-- The CSS text computed by the dirty branch of `generateCss`. -/
def renderCss (cfg : RenderConfig) (d : RecordData) : String :=
  let newLine := if cfg.minimize then "" else "\n"
  let indentation := if cfg.minimize then "" else "\t"
  let spacing := if cfg.minimize then "" else " "
  String.intercalate ((",") ++ newLine) (renderSelectors cfg d)
  ++ ("\x7b") ++ newLine
  ++ String.intercalate ((";") ++ newLine)
      (d.properties.map (fun kv => indentation ++ kv.1 ++ (":") ++ spacing ++ kv.2))
  ++ newLine ++ ("\x7d") ++ newLine

/-- `!this.cache`: the cache is absent (`null`) or the empty string. -/
def cacheFalsy (r : CssRecord) : Bool :=
  (r.cache.getD ("")).isEmpty

/-- `CssRecord.generateCss`: recompute and clear the flag when dirty or
the cache is falsy, otherwise return the cached text.  The
`cssRecord:cssGenerated` hook only observes the record, so it has no
effect on this pure model. -/
def generateCss (cfg : RenderConfig) (r : CssRecord) : String × CssRecord :=
  if r.changed || cacheFalsy r then
    let css := renderCss cfg (recordData r)
    (css, { r with cache := some css, changed := false })
  else (r.cache.getD (""), r)

/-- Undo of the escaping for `serialize`:
`replace(/\\([^-_a-zA-Z\d])/g, '$1')`, scanning left to right without
overlap. -/
def unescapeChars : List Char → List Char
  | [] => []
  | '\\' :: c :: rest =>
    if isAllowedChar c then '\\' :: unescapeChars (c :: rest)
    else c :: unescapeChars rest
  | c :: rest => c :: unescapeChars rest

/-- String form of `unescapeChars`. -/
def unescapeSelector (s : String) : String :=
  String.mk (unescapeChars s.data)

namespace Legacy

/-- The legacy default-export `CssRecord` class state. -/
structure CssRecord where
  selectors : List String := []
  properties : PropsMap := []
  pseudoClasses : List String := []
deriving DecidableEq, Repr

/-- `addSelector`: escape, optionally append a truthy pseudo-class,
skip when already present. -/
def addSelector (r : CssRecord) (selector : String) (pseudoClass : Option String) : CssRecord :=
  let esc := escapeSelector selector
  let esc :=
    match pseudoClass with
    | some pc => if pc = "" then esc else esc ++ (":") ++ pc
    | none => esc
  if esc ∈ r.selectors then r
  else { r with selectors := r.selectors ++ [esc] }

/-- `addProperty` of the legacy class: plain first-write-wins, no hook. -/
def addProperty (r : CssRecord) (property value : String) : CssRecord :=
  if (alookup property r.properties).isSome then r
  else { r with properties := r.properties ++ [(property, value)] }

/-- The legacy `compile` renderer (`config.minimize` optional). -/
def compile (minimize : Option Bool) (r : CssRecord) : String :=
  let mini := minimize.getD false
  let newLine := if mini then "" else "\n"
  String.intercalate ((",") ++ newLine) (r.selectors.map (fun s => (".") ++ s))
  ++ ("\x7b") ++ newLine
  ++ String.intercalate ((";") ++ newLine)
      (r.properties.map (fun kv => (if mini then "" else "\t") ++ kv.1 ++ (":") ++ kv.2))
  ++ newLine ++ ("\x7d") ++ newLine

/-- The serialized snapshot: `pseudoClasses` is `none` when the key is
absent from the produced object. -/
structure SerializedRecord where
  selectors : List String
  properties : PropsMap
  pseudoClasses : Option (List String)
deriving DecidableEq, Repr

/-- `serialize`: unescapes the selectors and copies the properties.  The
guard on the pseudo-classes reads `this.properties.length`, which on an
object is the value of a property literally named "length" (usually
`undefined`, hence falsy), not the number of keys. -/
def serialize (r : CssRecord) : SerializedRecord :=
  { selectors := r.selectors.map unescapeSelector
    properties := r.properties
    pseudoClasses :=
      match alookup ("length") r.properties with
      | some v => if v = "" then none else some r.pseudoClasses
      | none => none }

/-- `deserialize`: builds a record through the constructor (which leaves
`pseudoClasses` at the default `[]` when the snapshot has none) and then
overwrites `selectors` with the raw snapshot list, without re-escaping. -/
def deserialize (data : SerializedRecord) : CssRecord :=
  { selectors := data.selectors
    properties := data.properties
    pseudoClasses := data.pseudoClasses.getD [] }

/-- `hydrate`: re-adds each snapshot selector through `addSelector`,
then dereferences `data.pseudoClasses.length` — a `TypeError` (modelled
as `none`) whenever the snapshot carries no `pseudoClasses` key — then
merges pseudo-classes and properties. -/
def hydrate (data : SerializedRecord) (r : CssRecord) : Option CssRecord :=
  match data.pseudoClasses with
  | none => none
  | some pcs =>
    let r1 := data.selectors.foldl (fun acc s => addSelector acc s none) r
    let r2 :=
      if pcs.isEmpty then r1
      else { r1 with pseudoClasses :=
        r1.pseudoClasses ++ pcs.filter (fun pc => !(r1.pseudoClasses.contains pc)) }
    some (data.properties.foldl (fun acc kv => addProperty acc kv.1 kv.2) r2)

end Legacy

/-!
The Compiler and CompilationResult classes are not among the sources
(only their callers and tests are), so the compile pass below is
modelled from the spec, section 4.5: content is scanned for macro
matches; every match yields the raw matched token and the properties its
handler accumulated; the match's record is looked up by the
(selector, screen, scope) identity inside the result, created through
`configure` when absent, and merged through `addProperties` otherwise.
Screen/pseudo prefix parsing and content-option directives are omitted:
every modelled match carries the default screen and no pseudo-classes.
The hook registry is taken with no listeners (`idHook`).
-/

/-- Modelled from the spec: a macro handler, collapsing the pattern and
its `(MacroMatch, SelectorProperties) -> void` callback into a function
from a candidate token to the accumulated property map (`none` when the
pattern does not match the token). -/
abbrev HandlerFn := String → Option PropsMap

/-- Modelled from the spec: patterns are tried in configured order and
the first match for a given token wins. -/
def firstHandlerProps (handlers : List HandlerFn) (t : String) : Option PropsMap :=
  match handlers with
  | [] => none
  | h :: rest =>
    match h t with
    | some ps => some ps
    | none => firstHandlerProps rest t

/-- Split a character list at every whitespace character (segments
between consecutive separators may be empty, as with a textual split). -/
def splitWsChars (l : List Char) : List (List Char) :=
  l.foldr
    (fun c acc =>
      if c.isWhitespace then [] :: acc
      else
        match acc with
        | [] => [[c]]
        | t :: ts => (c :: t) :: ts)
    [[]]

/-- Modelled from the spec: scanning content for macro occurrences,
taken as whitespace-separated tokens matched left to right. -/
def findMacroMatches (handlers : List HandlerFn) (content : String) :
    List (String × PropsMap) :=
  ((splitWsChars content.data).map String.mk).filterMap
    (fun t => (firstHandlerProps handlers t).map (fun ps => (t, ps)))

/-- The (selector, screen, scope) identity of a record. -/
def recordIdentity (r : CssRecord) : Option String × Option Int × Option String :=
  (r.selector, r.screenId, r.scope)

/-- Identity as a function of the render data. -/
def dataIdentity (d : RecordData) : Option String × Option Int × Option String :=
  (d.selector, d.screenId, d.scope)

/-- Modelled from the spec: the identity a match resolves to — the
escaped token, the default screen, the compiler-level scope. -/
def matchIdentity (scope : Option String) (m : String × PropsMap) :
    Option String × Option Int × Option String :=
  (some (fullEscape m.1), none, jsOrNone scope)

/-- Modelled from the spec: the record created for a first-seen match,
activated for generation. -/
def newRecordFor (mangle : String → String) (scope : Option String)
    (m : String × PropsMap) : CssRecord :=
  match configure mangle idHook
      { selector := some m.1
        properties := some m.2
        scope := scope
        shouldBeGenerated := some true }
      emptyCssRecord with
  | Except.ok r => r
  | Except.error _ => emptyCssRecord

/-- Modelled from the spec: merging a match into the record that already
owns its identity. -/
def mergeIntoRecord (m : String × PropsMap) (r : CssRecord) : CssRecord :=
  addProperties idHook m.2 r

/-- Modelled from the spec: look up the match's identity among the
records in creation order; merge into the first owner, or append a
fresh record when none exists. -/
def mergeMatch (mangle : String → String) (scope : Option String)
    (m : String × PropsMap) : List CssRecord → List CssRecord
  | [] => [newRecordFor mangle scope m]
  | r :: rs =>
    if recordIdentity r = matchIdentity scope m then mergeIntoRecord m r :: rs
    else r :: mergeMatch mangle scope m rs

/-- Modelled from the spec: one compile pass over an already-extracted
match list, mutating or extending the supplied result. -/
def compileMatches (mangle : String → String) (scope : Option String)
    (ms : List (String × PropsMap)) (result : List CssRecord) : List CssRecord :=
  ms.foldl (fun acc m => mergeMatch mangle scope m acc) result

/-- Modelled from the spec: `compile(content, existingResult)`. -/
def compileContent (mangle : String → String) (scope : Option String)
    (handlers : List HandlerFn) (content : String) (result : List CssRecord) :
    List CssRecord :=
  compileMatches mangle scope (findMacroMatches handlers content) result

/-- Concatenation of a list of strings in order. -/
def concatAll : List String → String
  | [] => ("")
  | s :: rest => s ++ concatAll rest

/-- Modelled from the spec: `CompilationResult.generateCss` — records in
creation order, only those flagged for generation, each rendered by
`CssRecord.generateCss` (all records sit in the default screen group in
this model, so no media-query wrapping arises). -/
def resultGenerateCss (cfg : RenderConfig) (result : List CssRecord) : String :=
  concatAll ((result.filter (fun r => r.shouldBeGenerated)).map
    (fun r => (generateCss cfg r).1))

/-- The render configuration of the spec's concrete scenarios:
`{minimize:false, mangleSelectors:false}`. -/
def plainRenderConfig : RenderConfig :=
  { minimize := false, mangleSelectors := false }

/-- The selector escaping as the spec words it: every character that is
not alphanumeric, a hyphen or an underscore is prefixed by a backslash,
and a selector beginning with a digit additionally receives the CSS
hex-escape prefix for that leading digit (the digit `d` has code point
`0x3d`, so the escape is a literal backslash-3 placed before it). -/
def specEscapeSelector (s : String) : String :=
  (if (match s.data with | [] => false | c :: _ => c.isDigit) then ("\\3") else (""))
  ++ String.mk (s.data.flatMap (fun c => if isAllowedChar c then [c] else ['\\', c]))

/-- A record that already holds `margin: 10px` (first-write-wins input). -/
def marginRecord : CssRecord :=
  { emptyCssRecord with properties := [(("margin"), ("10px"))] }

/-- The handler of the single-letter-macro scenario: pattern `m:(\S+)`
whose callback adds `margin` with the capture. -/
def marginHandler : HandlerFn :=
  fun t =>
    match t.data with
    | 'm' :: ':' :: rest =>
      if rest.isEmpty then none else some [(("margin"), (String.mk rest))]
    | _ => none

/-- The compilation result of compiling the content "m:10px" once with
the margin macro and the identity mangler. -/
def c5Result : List CssRecord :=
  compileContent (fun s => s) none [marginHandler] ("m:10px") []

/-- Render data with custom selector `a` and two pseudo-classes — the
input separating "every pseudo-class suffix" from what the code does. -/
def twoPseudoData : RecordData :=
  { recordData emptyCssRecord with
    selector := some ("m\\:10px")
    customSelectors := [("a")]
    pseudoClasses := [("hover"), ("focus")] }

/-- Render data of the spec scenario: selector `m\:10px`, pseudo-class
`hover`, no custom or component selectors. -/
def hoverData : RecordData :=
  { recordData emptyCssRecord with
    selector := some ("m\\:10px")
    pseudoClasses := [("hover")] }

/-- A legacy record carrying a pseudo-class, exercising the
serialize/hydrate round trip. -/
def legacyHoverRecord : Legacy.CssRecord :=
  { selectors := [("m\\:10px")]
    properties := [(("margin"), ("10px"))]
    pseudoClasses := [("hover")] }

/-- A hook pipeline with one listener that derives an extra `color`
property next to the candidate pair. -/
def colorHook : PropsHook :=
  fun payload => payload ++ [(("color"), ("blue"))]

/-- A record that already holds `color: red` (hook-overwrite input). -/
def colorRecord : CssRecord :=
  { emptyCssRecord with properties := [(("color"), ("red"))] }

/-- A clean record with a warm render cache (changed cleared). -/
def cachedRecord : CssRecord :=
  { emptyCssRecord with
    selector := some ("x")
    changed := false
    cache := some ((".x\x7b\x7d\n")) }

/-- A config carrying only a selector. -/
def selectorOnlyConfig : CssRecordConfig :=
  { selector := some ("a") }

/-- A non-empty config without a selector key. -/
def screenOnlyConfig : CssRecordConfig :=
  { screenId := some 1 }

/-- The config of the C7 witness. -/
def tokenConfig : CssRecordConfig :=
  { selector := some ("m:10px") }

/-- The record produced by configuring `tokenConfig` onto a fresh
record with the identity mangler. -/
def tokenRecord : CssRecord :=
  match configure (fun s => s) idHook tokenConfig emptyCssRecord with
  | Except.ok r => r
  | Except.error _ => emptyCssRecord

/-- The record produced by configuring `selectorOnlyConfig` onto a
fresh record with the identity mangler. -/
def selectorOnlyRecord : CssRecord :=
  match configure (fun s => s) idHook selectorOnlyConfig emptyCssRecord with
  | Except.ok r => r
  | Except.error _ => emptyCssRecord

/-- A render datum owns a match: same identity, and every property key
the match accumulated is present. -/
def CoversD (scope : Option String) (d : RecordData) (m : String × PropsMap) : Prop :=
  dataIdentity d = matchIdentity scope m
  ∧ ∀ kv ∈ m.2, (alookup kv.1 d.properties).isSome = true

/-- A result list owns a match through one of its records. -/
def Covers (scope : Option String) (res : List CssRecord) (m : String × PropsMap) : Prop :=
  ∃ d ∈ res.map recordData, CoversD scope d m

/-- Every record of a mid-compilation result is dirty and uncached. -/
def InvCR (res : List CssRecord) : Prop :=
  ∀ r ∈ res, r.changed = true ∧ r.cache = none

/-- The identities of a result's records are pairwise distinct. -/
def NodupIds (res : List CssRecord) : Prop :=
  (res.map recordIdentity).Nodup

/-- Every record's property keys are pairwise distinct. -/
def NodupProps (res : List CssRecord) : Prop :=
  ∀ r ∈ res, (r.properties.map Prod.fst).Nodup

theorem alookup_eq_none_iff {β : Type} (q : String) (l : List (String × β)) :
    alookup q l = none ↔ ∀ kv ∈ l, kv.1 ≠ q := by
  induction l with
  | nil => simp [alookup]
  | cons kv rest ih =>
    by_cases h : kv.1 = q
    · simp [alookup, h]
    · simp [alookup, h, ih]

theorem alookup_append {β : Type} (q : String) (a b : List (String × β)) :
    alookup q (a ++ b) =
      match alookup q a with
      | some v => some v
      | none => alookup q b := by
  induction a with
  | nil => simp [alookup]
  | cons kv rest ih =>
    by_cases h : kv.1 = q
    · simp [alookup, h]
    · simp [alookup, h, ih]

theorem alookup_map_spread (q : String) (a b : PropsMap) :
    alookup q (a.map (fun kv => match alookup kv.1 b with
        | some v => (kv.1, v)
        | none => kv)) =
      match alookup q a with
      | some v =>
        (match alookup q b with
         | some w => some w
         | none => some v)
      | none => none := by
  induction a with
  | nil => simp [alookup]
  | cons kv rest ih =>
    by_cases h : kv.1 = q
    · subst h
      cases hb : alookup kv.1 b <;> simp [alookup, hb]
    · cases hb : alookup kv.1 b <;> simp [alookup, hb, h, ih]

theorem alookup_filter_fresh (q : String) (a b : PropsMap)
    (ha : alookup q a = none) :
    alookup q (b.filter (fun kv => (alookup kv.1 a).isNone)) = alookup q b := by
  induction b with
  | nil => simp
  | cons kv rest ih =>
    by_cases h : kv.1 = q
    · subst h
      simp [List.filter, ha, alookup]
    · cases hkv : (alookup kv.1 a).isNone <;>
        simp [List.filter, hkv, alookup, h, ih]

theorem alookup_spread (q : String) (a b : PropsMap) :
    alookup q (spread a b) =
      match alookup q b with
      | some w => some w
      | none => alookup q a := by
  unfold spread
  rw [alookup_append, alookup_map_spread]
  cases ha : alookup q a with
  | some v => cases hb : alookup q b <;> simp
  | none =>
    rw [alookup_filter_fresh q a b ha]
    cases hb : alookup q b <;> simp

theorem map_spread_id (p v : String) (a : PropsMap)
    (ha : ∀ kv ∈ a, kv.1 ≠ p) :
    a.map (fun kv => match alookup kv.1 [(p, v)] with
      | some w => (kv.1, w)
      | none => kv) = a := by
  induction a with
  | nil => rfl
  | cons kv rest ih =>
    have hne : ¬ (p = kv.1) := fun h => ha kv (by simp) h.symm
    simp only [List.map_cons, alookup, if_neg hne]
    exact congrArg (kv :: ·) (ih (fun kv h => ha kv (by simp [h])))

theorem spread_singleton_absent (p v : String) (a : PropsMap)
    (ha : alookup p a = none) :
    spread a [(p, v)] = a ++ [(p, v)] := by
  unfold spread
  rw [map_spread_id p v a ((alookup_eq_none_iff p a).mp ha)]
  simp [alookup, ha]

theorem addProperty_present (hook : PropsHook) (p v : String) (st : CssRecord)
    (h : (alookup p st.properties).isSome) :
    addProperty hook p v st = st := by
  simp [addProperty, h]

theorem addProperty_absent (hook : PropsHook) (p v : String) (st : CssRecord)
    (h : alookup p st.properties = none) :
    addProperty hook p v st =
      { st with changed := true
                properties := spread st.properties (hook [(p, v)]) } := by
  simp [addProperty, h]

theorem addProperty_cache (hook : PropsHook) (p v : String) (st : CssRecord) :
    (addProperty hook p v st).cache = st.cache := by
  unfold addProperty
  split <;> rfl

theorem addProperty_changed_mono (hook : PropsHook) (p v : String) (st : CssRecord)
    (h : st.changed = true) :
    (addProperty hook p v st).changed = true := by
  unfold addProperty
  split <;> simp [h]

theorem addProperty_skeleton (hook : PropsHook) (p v : String) (st : CssRecord) :
    (addProperty hook p v st).selector = st.selector
    ∧ (addProperty hook p v st).mangledSelector = st.mangledSelector
    ∧ (addProperty hook p v st).screenId = st.screenId
    ∧ (addProperty hook p v st).scope = st.scope
    ∧ (addProperty hook p v st).customSelectors = st.customSelectors
    ∧ (addProperty hook p v st).components = st.components
    ∧ (addProperty hook p v st).pseudoClasses = st.pseudoClasses
    ∧ (addProperty hook p v st).shouldBeGenerated = st.shouldBeGenerated := by
  unfold addProperty
  split <;> simp

theorem addProperty_lookup_mono (hook : PropsHook) (p v q : String) (st : CssRecord)
    (h : (alookup q st.properties).isSome) :
    (alookup q (addProperty hook p v st).properties).isSome := by
  unfold addProperty
  split
  · exact h
  · simp only
    rw [alookup_spread]
    cases hb : alookup q (hook [(p, v)]) <;> simp [h]

theorem addProperty_adds (p v : String) (st : CssRecord) :
    (alookup p (addProperty idHook p v st).properties).isSome := by
  by_cases h : (alookup p st.properties).isSome
  · rw [addProperty_present idHook p v st h]
    exact h
  · have hn : alookup p st.properties = none := by
      cases hx : alookup p st.properties
      · rfl
      · simp [hx] at h
    rw [addProperty_absent idHook p v st hn]
    simp only
    rw [alookup_spread]
    simp [idHook, alookup]

theorem addProperties_cache (hook : PropsHook) (props : PropsMap) (st : CssRecord) :
    (addProperties hook props st).cache = st.cache := by
  induction props generalizing st with
  | nil => rfl
  | cons kv rest ih =>
    unfold addProperties
    simp only [List.foldl_cons]
    rw [show (List.foldl (fun s kv => addProperty hook kv.1 kv.2 { s with changed := true })
      (addProperty hook kv.1 kv.2 { st with changed := true }) rest)
      = addProperties hook rest (addProperty hook kv.1 kv.2 { st with changed := true }) from rfl]
    rw [ih]
    exact addProperty_cache hook kv.1 kv.2 { st with changed := true }

theorem addProperties_cons (hook : PropsHook) (kv : String × String) (rest : PropsMap)
    (st : CssRecord) :
    addProperties hook (kv :: rest) st =
      addProperties hook rest (addProperty hook kv.1 kv.2 { st with changed := true }) := rfl

theorem addProperties_changed_mono (hook : PropsHook) (props : PropsMap) (st : CssRecord)
    (h : st.changed = true) :
    (addProperties hook props st).changed = true := by
  induction props generalizing st with
  | nil => exact h
  | cons kv rest ih =>
    rw [addProperties_cons]
    exact ih _ (addProperty_changed_mono hook kv.1 kv.2 _ rfl)

theorem addProperties_skeleton (hook : PropsHook) (props : PropsMap) (st : CssRecord) :
    (addProperties hook props st).selector = st.selector
    ∧ (addProperties hook props st).mangledSelector = st.mangledSelector
    ∧ (addProperties hook props st).screenId = st.screenId
    ∧ (addProperties hook props st).scope = st.scope
    ∧ (addProperties hook props st).customSelectors = st.customSelectors
    ∧ (addProperties hook props st).components = st.components
    ∧ (addProperties hook props st).pseudoClasses = st.pseudoClasses
    ∧ (addProperties hook props st).shouldBeGenerated = st.shouldBeGenerated := by
  induction props generalizing st with
  | nil => exact ⟨rfl, rfl, rfl, rfl, rfl, rfl, rfl, rfl⟩
  | cons kv rest ih =>
    rw [addProperties_cons]
    obtain ⟨i1, i2, i3, i4, i5, i6, i7, i8⟩ :=
      ih (addProperty hook kv.1 kv.2 { st with changed := true })
    obtain ⟨a1, a2, a3, a4, a5, a6, a7, a8⟩ :=
      addProperty_skeleton hook kv.1 kv.2 { st with changed := true }
    exact ⟨i1.trans a1, i2.trans a2, i3.trans a3, i4.trans a4,
      i5.trans a5, i6.trans a6, i7.trans a7, i8.trans a8⟩

theorem addProperties_lookup_mono (hook : PropsHook) (props : PropsMap) (q : String)
    (st : CssRecord) (h : (alookup q st.properties).isSome) :
    (alookup q (addProperties hook props st).properties).isSome := by
  induction props generalizing st with
  | nil => exact h
  | cons kv rest ih =>
    rw [addProperties_cons]
    exact ih _ (addProperty_lookup_mono hook kv.1 kv.2 q _ h)

theorem addProperties_adds_all (props : PropsMap) (st : CssRecord) :
    ∀ kv ∈ props, (alookup kv.1 (addProperties idHook props st).properties).isSome := by
  induction props generalizing st with
  | nil => intro kv h; cases h
  | cons kv0 rest ih =>
    intro kv hmem
    rw [addProperties_cons]
    rcases List.mem_cons.mp hmem with heq | htail
    · subst heq
      exact addProperties_lookup_mono idHook rest kv.1 _
        (addProperty_adds kv.1 kv.2 { st with changed := true })
    · exact ih _ kv htail

theorem addProperties_all_present (hook : PropsHook) (props : PropsMap) (st : CssRecord)
    (h : ∀ kv ∈ props, (alookup kv.1 st.properties).isSome) :
    addProperties hook props st = (if props.isEmpty then st else { st with changed := true }) := by
  induction props generalizing st with
  | nil => rfl
  | cons kv rest ih =>
    rw [addProperties_cons]
    have hp : (alookup kv.1 ({ st with changed := true } : CssRecord).properties).isSome :=
      h kv (by simp)
    rw [addProperty_present hook kv.1 kv.2 _ hp]
    rw [ih { st with changed := true } (fun kv hm => h kv (by simp [hm]))]
    by_cases he : rest.isEmpty <;> simp [he]

theorem addPseudoClasses_cons (pc : String) (rest : List String) (st : CssRecord) :
    addPseudoClasses (pc :: rest) st =
      addPseudoClasses rest
        (if pc ∈ st.pseudoClasses then st
         else { st with changed := true, pseudoClasses := st.pseudoClasses ++ [pc] }) := rfl

theorem addPseudoClasses_changed_mono (pcs : List String) (st : CssRecord)
    (h : st.changed = true) :
    (addPseudoClasses pcs st).changed = true := by
  induction pcs generalizing st with
  | nil => exact h
  | cons pc rest ih =>
    rw [addPseudoClasses_cons]
    by_cases hm : pc ∈ st.pseudoClasses
    · rw [if_pos hm]; exact ih st h
    · rw [if_neg hm]; exact ih _ rfl

theorem addPseudoClasses_eq_or_changed (pcs : List String) (st : CssRecord) :
    addPseudoClasses pcs st = st ∨ (addPseudoClasses pcs st).changed = true := by
  induction pcs generalizing st with
  | nil => exact Or.inl rfl
  | cons pc rest ih =>
    rw [addPseudoClasses_cons]
    by_cases hm : pc ∈ st.pseudoClasses
    · rw [if_pos hm]; exact ih st
    · rw [if_neg hm]
      exact Or.inr (addPseudoClasses_changed_mono rest _ rfl)

theorem addComponent_changed_mono (sel : String) (chain : List String) (st : CssRecord)
    (h : st.changed = true) :
    (addComponent sel chain st).changed = true := by
  by_cases hc : (alookup (escapeSelector sel) st.components).isSome <;>
    simp [addComponent, hc, h]

theorem addComponent_eq_or_changed (sel : String) (chain : List String) (st : CssRecord) :
    addComponent sel chain st = st ∨ (addComponent sel chain st).changed = true := by
  by_cases hc : (alookup (escapeSelector sel) st.components).isSome
  · exact Or.inl (by simp [addComponent, hc])
  · exact Or.inr (by simp [addComponent, hc])

theorem addComponents_cons (kv : String × List String) (rest : List (String × List String))
    (st : CssRecord) :
    addComponents (kv :: rest) st = addComponents rest (addComponent kv.1 kv.2 st) := rfl

theorem addComponents_changed_mono (cmps : List (String × List String)) (st : CssRecord)
    (h : st.changed = true) :
    (addComponents cmps st).changed = true := by
  induction cmps generalizing st with
  | nil => exact h
  | cons kv rest ih =>
    rw [addComponents_cons]
    exact ih _ (addComponent_changed_mono kv.1 kv.2 st h)

theorem addComponents_eq_or_changed (cmps : List (String × List String)) (st : CssRecord) :
    addComponents cmps st = st ∨ (addComponents cmps st).changed = true := by
  induction cmps generalizing st with
  | nil => exact Or.inl rfl
  | cons kv rest ih =>
    rw [addComponents_cons]
    rcases addComponent_eq_or_changed kv.1 kv.2 st with heq | hch
    · rw [heq]; exact ih st
    · exact Or.inr (addComponents_changed_mono rest _ hch)

theorem configure_empty (mangle : String → String) (hook : PropsHook)
    (c : CssRecordConfig) (st : CssRecord) (h : configEmpty c = true) :
    configure mangle hook c st = Except.ok st := by
  simp [configure, h]

theorem configure_missing_selector (mangle : String → String) (hook : PropsHook)
    (c : CssRecordConfig) (st : CssRecord) (h1 : configEmpty c = false)
    (h2 : c.selector = none) :
    configure mangle hook c st =
      Except.error ("TypeError: Cannot read properties of undefined (reading replace)") := by
  simp [configure, h1, h2]

theorem configure_some (mangle : String → String) (hook : PropsHook)
    (c : CssRecordConfig) (st : CssRecord) (sel : String) (h2 : c.selector = some sel) :
    configure mangle hook c st =
      Except.ok { addPseudoClasses (c.pseudoClasses.getD [])
        (addProperties hook (c.properties.getD [])
          (addComponents (c.components.getD [])
            { st with
              mangledSelector := some (mangle sel)
              screenId := c.screenId
              selector := some (fullEscape sel)
              scope := jsOrNone c.scope
              shouldBeGenerated := c.shouldBeGenerated.getD st.shouldBeGenerated }))
        with changed := true } := by
  have h1 : configEmpty c = false := by
    unfold configEmpty
    simp [h2]
  simp [configure, h1, h2]

theorem configure_ok_changed (mangle : String → String) (hook : PropsHook)
    (c : CssRecordConfig) (st st' : CssRecord)
    (h : configure mangle hook c st = Except.ok st')
    (hne : recordData st' ≠ recordData st) :
    st'.changed = true := by
  by_cases he : configEmpty c = true
  · rw [configure_empty mangle hook c st he] at h
    cases h
    exact absurd rfl hne
  · cases hsel : c.selector with
    | none =>
      rw [configure_missing_selector mangle hook c st (by simpa using he) hsel] at h
      cases h
    | some sel =>
      rw [configure_some mangle hook c st sel hsel] at h
      cases h
      rfl

theorem renderCss_length_pos (cfg : RenderConfig) (d : RecordData) :
    0 < (renderCss cfg d).length := by
  unfold renderCss
  simp only [String.length_append]
  have h1 : (("\x7b") : String).length = 1 := rfl
  omega

theorem renderCss_ne_empty (cfg : RenderConfig) (d : RecordData) :
    renderCss cfg d ≠ ("") := by
  intro h
  have := renderCss_length_pos cfg d
  rw [h] at this
  simp at this

theorem generateCss_cached (cfg : RenderConfig) (r : CssRecord) (c : String)
    (h1 : r.changed = false) (h2 : r.cache = some c) (h3 : c ≠ ("")) :
    generateCss cfg r = (c, r) := by
  have hf : cacheFalsy r = false := by
    rw [Bool.eq_false_iff]
    intro hx
    exact h3 ((String.isEmpty_iff c).mp (by simpa [cacheFalsy, h2] using hx))
  simp [generateCss, h1, hf, h2]

theorem generateCss_dirty (cfg : RenderConfig) (r : CssRecord)
    (h : r.changed = true ∨ cacheFalsy r = true) :
    generateCss cfg r =
      (renderCss cfg (recordData r),
       { r with cache := some (renderCss cfg (recordData r)), changed := false }) := by
  rcases h with h | h <;> simp [generateCss, h]

theorem generateCss_stable (cfg : RenderConfig) (r : CssRecord) :
    generateCss cfg (generateCss cfg r).2 =
      ((generateCss cfg r).1, (generateCss cfg r).2) := by
  by_cases hc : (r.changed || cacheFalsy r) = true
  · have h2 : generateCss cfg r =
        (renderCss cfg (recordData r),
         { r with cache := some (renderCss cfg (recordData r)), changed := false }) :=
      generateCss_dirty cfg r (Bool.or_eq_true_iff.mp hc)
    rw [h2]
    exact generateCss_cached cfg _ _ rfl rfl (renderCss_ne_empty cfg (recordData r))
  · have hch : r.changed = false := by
      cases h : r.changed
      · rfl
      · simp [h] at hc
    have hcf : cacheFalsy r = false := by
      cases h : cacheFalsy r
      · rfl
      · simp [h] at hc
    cases hcache : r.cache with
    | none =>
      have : cacheFalsy r = true := by
        simp [cacheFalsy, hcache]
        rfl
      rw [this] at hcf
      cases hcf
    | some c =>
      have hne : c ≠ ("") := by
        intro h
        subst h
        have : cacheFalsy r = true := by
          simp [cacheFalsy, hcache]
          rfl
        rw [this] at hcf
        cases hcf
      rw [generateCss_cached cfg r c hch hcache hne]
      exact generateCss_cached cfg r c hch hcache hne

/-- C1: once a property with a given name is present on a CssRecord, a
second `addProperty` call with the same name is a no-op — the record is
returned unchanged, so the stored value stays the one from the first
call.  In particular, adding `margin=10px` then `margin=20px` (with no
hook listeners) leaves `properties.margin = "10px"`. -/
theorem claim1_first_write_wins (hook : PropsHook) (st : CssRecord) (p v : String)
    (h : (alookup p st.properties).isSome) :
    addProperty hook p v st = st
    ∧ alookup ("margin")
        ((addProperty idHook ("margin") ("20px")
          (addProperty idHook ("margin") ("10px") emptyCssRecord)).properties)
      = some ("10px") := by
  refine ⟨addProperty_present hook p v st h, ?_⟩
  decide

/-- Witness for C1 at a record already holding `margin: 10px`. -/
theorem claim1_witness :
    addProperty idHook ("margin") ("20px") marginRecord = marginRecord
    ∧ alookup ("margin")
        ((addProperty idHook ("margin") ("20px")
          (addProperty idHook ("margin") ("10px") emptyCssRecord)).properties)
      = some ("10px") :=
  claim1_first_write_wins idHook marginRecord ("margin") ("20px") (by decide)

/-- C8: for a property name not already present, `addProperty` merges
the whole hook-returned mapping into the properties by object spread;
any key of that mapping that already exists in the properties is
overwritten — the first-write-wins guard protects only the argument
name. -/
theorem claim8_hook_spread_overwrites (hook : PropsHook) (st : CssRecord)
    (p v q w : String) (h1 : alookup p st.properties = none)
    (h2 : alookup q (hook [(p, v)]) = some w) :
    addProperty hook p v st =
      { st with changed := true, properties := spread st.properties (hook [(p, v)]) }
    ∧ alookup q ((addProperty hook p v st).properties) = some w := by
  refine ⟨addProperty_absent hook p v st h1, ?_⟩
  rw [addProperty_absent hook p v st h1]
  simp only
  rw [alookup_spread]
  simp [h2]

/-- Witness for C8: the hook derives `color: blue` next to the
candidate `margin` pair; the record's existing `color: red` is
overwritten. -/
theorem claim8_witness :
    addProperty colorHook ("margin") ("10px") colorRecord =
      { colorRecord with
        changed := true
        properties := spread colorRecord.properties (colorHook [(("margin"), ("10px"))]) }
    ∧ alookup ("color")
        ((addProperty colorHook ("margin") ("10px") colorRecord).properties)
      = some ("blue") :=
  claim8_hook_spread_overwrites colorHook colorRecord ("margin") ("10px") ("color") ("blue")
    (by decide) (by decide)

/-- C9: `addCustomSelector` appends an absent selector without touching
the `changed` flag, so with a warm cache the next `generateCss` returns
the previously cached text unchanged (in which the new custom selector
never appears, since the text predates the addition). -/
theorem claim9_custom_selector_stale_cache (st : CssRecord) (s c : String)
    (cfg : RenderConfig) (h1 : st.changed = false) (h2 : st.cache = some c)
    (h3 : c ≠ ("")) (h4 : s ∉ st.customSelectors) :
    (addCustomSelector s st).changed = st.changed
    ∧ (addCustomSelector s st).customSelectors = st.customSelectors ++ [s]
    ∧ generateCss cfg (addCustomSelector s st) = (c, addCustomSelector s st) := by
  have heq : addCustomSelector s st =
      { st with customSelectors := st.customSelectors ++ [s] } := by
    simp [addCustomSelector, h4]
  refine ⟨by rw [heq], by rw [heq], ?_⟩
  exact generateCss_cached cfg _ c (by rw [heq]; exact h1) (by rw [heq]; exact h2) h3

/-- Witness for C9 on a record with a warm cache. -/
theorem claim9_witness :
    (addCustomSelector ("new") cachedRecord).changed = cachedRecord.changed
    ∧ (addCustomSelector ("new") cachedRecord).customSelectors =
        cachedRecord.customSelectors ++ [("new")]
    ∧ generateCss plainRenderConfig (addCustomSelector ("new") cachedRecord) =
        ((".x\x7b\x7d\n"), addCustomSelector ("new") cachedRecord) :=
  claim9_custom_selector_stale_cache cachedRecord ("new") ((".x\x7b\x7d\n"))
    plainRenderConfig rfl rfl (by decide) (by decide)

/-- C10: `configure` with an empty config object is a no-op; any
non-empty config without a `selector` key makes `configure` reach
`config.selector.replace` on `undefined` and throw. -/
theorem claim10_configure_selector_precondition (mangle : String → String)
    (hook : PropsHook) (c0 c1 : CssRecordConfig) (st : CssRecord)
    (h0 : configEmpty c0 = true) (h1 : configEmpty c1 = false)
    (h2 : c1.selector = none) :
    configure mangle hook c0 st = Except.ok st
    ∧ configure mangle hook c1 st =
        Except.error ("TypeError: Cannot read properties of undefined (reading replace)") :=
  ⟨configure_empty mangle hook c0 st h0,
   configure_missing_selector mangle hook c1 st h1 h2⟩

/-- Witness for C10 with the empty config and a screen-only config. -/
theorem claim10_witness :
    configure (fun s => s) idHook {} emptyCssRecord = Except.ok emptyCssRecord
    ∧ configure (fun s => s) idHook screenOnlyConfig emptyCssRecord =
        Except.error ("TypeError: Cannot read properties of undefined (reading replace)") :=
  claim10_configure_selector_precondition (fun s => s) idHook {} screenOnlyConfig
    emptyCssRecord (by decide) (by decide) (by decide)

theorem escapeChars_eq_flatMap (l : List Char) :
    escapeChars l = l.flatMap (fun c => if isAllowedChar c then [c] else ['\\', c]) := by
  induction l with
  | nil => rfl
  | cons c rest ih =>
    by_cases h : isAllowedChar c <;> simp [escapeChars, h, ih]

theorem digit_isAllowed (c : Char) (h : c.isDigit = true) : isAllowedChar c = true := by
  simp [isAllowedChar, h]

theorem headIsDigit_escape (s : String) :
    headIsDigit (escapeSelector s) =
      (match s.data with | [] => false | c :: _ => c.isDigit) := by
  unfold escapeSelector
  cases hd : s.data with
  | nil => rfl
  | cons c rest =>
    by_cases h : isAllowedChar c = true
    · simp [headIsDigit, escapeChars, h]
    · have hcd : c.isDigit = false := by
        cases hx : c.isDigit
        · rfl
        · exact absurd (digit_isAllowed c hx) h
      simp [headIsDigit, escapeChars, h, hcd]

theorem fullEscape_eq_spec (s : String) : fullEscape s = specEscapeSelector s := by
  have hesc : escapeSelector s =
      String.mk (s.data.flatMap (fun c => if isAllowedChar c then [c] else ['\\', c])) := by
    unfold escapeSelector
    rw [escapeChars_eq_flatMap]
  show (if headIsDigit (escapeSelector s) = true
      then ("\\3") ++ escapeSelector s else escapeSelector s) = _
  rw [headIsDigit_escape, hesc]
  unfold specEscapeSelector
  cases hd : s.data with
  | nil => simp
  | cons c rest =>
    by_cases h : c.isDigit = true
    · simp [h]
    · simp [h]

theorem addPseudoClasses_selector (pcs : List String) (st : CssRecord) :
    (addPseudoClasses pcs st).selector = st.selector := by
  induction pcs generalizing st with
  | nil => rfl
  | cons pc rest ih =>
    rw [addPseudoClasses_cons]
    by_cases hm : pc ∈ st.pseudoClasses
    · rw [if_pos hm]; exact ih st
    · rw [if_neg hm]; exact ih _

theorem addComponent_skeleton (sel : String) (chain : List String) (st : CssRecord) :
    (addComponent sel chain st).selector = st.selector
    ∧ (addComponent sel chain st).mangledSelector = st.mangledSelector
    ∧ (addComponent sel chain st).screenId = st.screenId
    ∧ (addComponent sel chain st).scope = st.scope
    ∧ (addComponent sel chain st).shouldBeGenerated = st.shouldBeGenerated
    ∧ (addComponent sel chain st).cache = st.cache
    ∧ (addComponent sel chain st).properties = st.properties
    ∧ (addComponent sel chain st).pseudoClasses = st.pseudoClasses := by
  by_cases hc : (alookup (escapeSelector sel) st.components).isSome <;>
    simp [addComponent, hc]

theorem addComponents_selector (cmps : List (String × List String)) (st : CssRecord) :
    (addComponents cmps st).selector = st.selector := by
  induction cmps generalizing st with
  | nil => rfl
  | cons kv rest ih =>
    rw [addComponents_cons]
    exact (ih _).trans (addComponent_skeleton kv.1 kv.2 st).1

/-- C7: the canonical selector `configure` stores is the configured
selector with every character outside `[-_a-zA-Z0-9]` prefixed by a
backslash, plus the CSS hex-escape prefix `\3` when the selector begins
with a digit. -/
theorem claim7_selector_escaping (mangle : String → String) (hook : PropsHook)
    (c : CssRecordConfig) (st st' : CssRecord) (s : String)
    (h1 : c.selector = some s) (h2 : configure mangle hook c st = Except.ok st') :
    st'.selector = some (specEscapeSelector s) := by
  rw [configure_some mangle hook c st s h1] at h2
  cases h2
  show (addPseudoClasses _ _).selector = _
  rw [addPseudoClasses_selector, (addProperties_skeleton hook _ _).1, addComponents_selector]
  simp [fullEscape_eq_spec]

/-- Witness for C7 on the selector `m:10px`. -/
theorem claim7_witness :
    tokenRecord.selector = some (specEscapeSelector ("m:10px")) :=
  claim7_selector_escaping (fun s => s) idHook tokenConfig emptyCssRecord tokenRecord
    ("m:10px") rfl rfl

/-- C5 counterexample: compiling "m:10px" with the margin macro and
rendering with `{minimize:false, mangleSelectors:false}` yields
".m\:10px{\n\tmargin: 10px\n}\n" — with a space after the colon — and
not the claimed ".m\:10px{\n\tmargin:10px\n}\n". -/
theorem claim5_counterexample :
    resultGenerateCss plainRenderConfig c5Result
      = (".m\\:10px\x7b\n\tmargin: 10px\n\x7d\n")
    ∧ resultGenerateCss plainRenderConfig c5Result
      ≠ (".m\\:10px\x7b\n\tmargin:10px\n\x7d\n") := by
  constructor
  · rfl
  · decide

/-- C5 amended: the compilation of "m:10px" holds exactly one CssRecord
with the escaped selector `m\:10px` and properties `margin: 10px`, and
the non-minimized render of that result is
".m\:10px{\n\tmargin: 10px\n}\n" (the non-minimized property spacing
puts one space after the colon). -/
theorem claim5_amended :
    c5Result =
      [{ changed := true
         cache := none
         shouldBeGenerated := true
         selector := some ("m\\:10px")
         mangledSelector := some ("m:10px")
         screenId := none
         scope := none
         customSelectors := []
         components := []
         properties := [(("margin"), ("10px"))]
         pseudoClasses := [] }]
    ∧ resultGenerateCss plainRenderConfig c5Result
      = (".m\\:10px\x7b\n\tmargin: 10px\n\x7d\n") := by
  constructor
  · rfl
  · rfl

/-- C6: the legacy serialize/hydrate round trip does not preserve
pseudo-classes.  `serialize` guards the pseudo-class field with
`this.properties.length` — on an object that is the value of a property
named "length", normally `undefined` — so the snapshot never carries
`pseudoClasses`; `hydrate` then dereferences
`data.pseudoClasses.length` and throws.  Evaluated on a record with
pseudo-class `hover`. -/
theorem claim6_roundtrip_loses_pseudo :
    legacyHoverRecord.pseudoClasses = [("hover")]
    ∧ (Legacy.serialize legacyHoverRecord).pseudoClasses = none
    ∧ Legacy.hydrate (Legacy.serialize legacyHoverRecord) {} = none := by
  exact ⟨rfl, rfl, rfl⟩

theorem foldl_pair_last_flatMap {α : Type} (f : α → List String) (g : α → List String)
    (pcs : List α) (acc : List String × List String) :
    pcs.foldl (fun acc pc => (f pc, acc.2 ++ g pc)) acc =
      ((match pcs.getLast? with | none => acc.1 | some lp => f lp),
       acc.2 ++ pcs.flatMap g) := by
  induction pcs generalizing acc with
  | nil => simp
  | cons pc rest ih =>
    cases rest with
    | nil => simp [List.foldl]
    | cons pc2 rest2 =>
      rw [List.foldl_cons, ih, List.getLast?_cons_cons]
      cases hgl : (pc2 :: rest2).getLast? with
      | none => exact absurd (List.getLast?_eq_none_iff.mp hgl) (by simp)
      | some lp => simp [hgl, List.append_assoc]

theorem renderSelectorParts_eq (cfg : RenderConfig) (d : RecordData) :
    renderSelectorParts cfg d =
      (match d.pseudoClasses.getLast? with
       | none =>
         (d.customSelectors,
          optStr (if cfg.mangleSelectors then d.mangledSelector else d.selector)
            :: componentSelectorsList d)
       | some lp =>
         (d.customSelectors.map (fun s => s ++ (":") ++ lp),
          d.pseudoClasses.flatMap (fun pc =>
            (optStr (if cfg.mangleSelectors then d.mangledSelector else d.selector)
              ++ (":") ++ pc)
            :: (componentSelectorsList d).map (fun s => s ++ (":") ++ pc)))) := by
  unfold renderSelectorParts
  by_cases he : d.pseudoClasses.isEmpty
  · have hl : d.pseudoClasses.getLast? = none := by
      rw [List.isEmpty_iff] at he
      rw [he]
      rfl
    simp [he, hl]
  · have hne : d.pseudoClasses ≠ [] := by
      intro h
      rw [List.isEmpty_iff] at he
      exact he h
    cases hl : d.pseudoClasses.getLast? with
    | none =>
      exact absurd (List.getLast?_eq_none_iff.mp hl) hne
    | some lp =>
      simp only [he, Bool.false_eq_true, if_false,
        foldl_pair_last_flatMap
          (fun pc => d.customSelectors.map (fun s => s ++ (":") ++ pc))
          (fun pc =>
            (optStr (if cfg.mangleSelectors then d.mangledSelector else d.selector)
              ++ (":") ++ pc)
            :: (componentSelectorsList d).map (fun s => s ++ (":") ++ pc))
          d.pseudoClasses (([], []) : List String × List String), hl]
      simp

/-- C4 amended: `generateCss` applies each pseudo-class suffix to the
class selector and to every component selector, while custom selectors
receive only the last pseudo-class's suffix (the loop overwrites the
custom list on every iteration); no unsuffixed variant appears when the
pseudo-class list is non-empty, and no suffix is applied when it is
empty.  The record with selector `m\:10px` and pseudo-class `hover`
renders the selector `.m\:10px:hover` only. -/
theorem claim4_amended (cfg : RenderConfig) (d : RecordData) :
    renderSelectors cfg d =
      (match d.pseudoClasses.getLast? with
       | none =>
         d.customSelectors.map (fun s => d.scope.getD ("") ++ s)
         ++ ((optStr (if cfg.mangleSelectors then d.mangledSelector else d.selector)
              :: componentSelectorsList d).map
             (fun s => d.scope.getD ("") ++ (".") ++ s))
       | some lp =>
         (d.customSelectors.map (fun s => s ++ (":") ++ lp)).map
           (fun s => d.scope.getD ("") ++ s)
         ++ (d.pseudoClasses.flatMap (fun pc =>
              (optStr (if cfg.mangleSelectors then d.mangledSelector else d.selector)
                ++ (":") ++ pc)
              :: (componentSelectorsList d).map (fun s => s ++ (":") ++ pc))).map
            (fun s => d.scope.getD ("") ++ (".") ++ s))
    ∧ renderSelectors plainRenderConfig hoverData = [(".m\\:10px:hover")] := by
  constructor
  · unfold renderSelectors
    rw [renderSelectorParts_eq]
    cases hl : d.pseudoClasses.getLast? <;> simp
  · rfl

/-- C4 counterexample: on a record with custom selector `a` and
pseudo-classes `hover` then `focus`, the rendered selector list is
`[a:focus, .m\:10px:hover, .m\:10px:focus]` — the custom-selector
variant `a:hover` required by the claim does not appear. -/
theorem claim4_counterexample :
    renderSelectors plainRenderConfig twoPseudoData
      = [("a:focus"), (".m\\:10px:hover"), (".m\\:10px:focus")]
    ∧ ("a:hover") ∉ renderSelectors plainRenderConfig twoPseudoData := by
  constructor
  · rfl
  · decide

/-- C3: every mutating call among `configure`, `addProperty`,
`addProperties`, `addPseudoClasses`, `addComponent` and `addComponents`
that actually changes the record's data sets `changed = true`;
`generateCss` recomputes only when the flag is set or the cache is
absent and then clears the flag; and a repeated `generateCss` call with
no intervening mutation returns the identical cached text with the
state untouched. -/
theorem claim3_dirty_flag_caching (mangle : String → String) (hook : PropsHook)
    (cfg : RenderConfig) (c : CssRecordConfig) (s0 s0' s1 s2 s3 s4 s5 s6 s7 s8 : CssRecord)
    (p v : String) (props : PropsMap) (pcs : List String) (sel : String)
    (chain : List String) (cmps : List (String × List String)) (cached : String) :
    (configure mangle hook c s0 = Except.ok s0' →
      recordData s0' ≠ recordData s0 → s0'.changed = true)
    ∧ (recordData (addProperty hook p v s1) ≠ recordData s1 →
        (addProperty hook p v s1).changed = true)
    ∧ (recordData (addProperties hook props s2) ≠ recordData s2 →
        (addProperties hook props s2).changed = true)
    ∧ (recordData (addPseudoClasses pcs s3) ≠ recordData s3 →
        (addPseudoClasses pcs s3).changed = true)
    ∧ (recordData (addComponent sel chain s4) ≠ recordData s4 →
        (addComponent sel chain s4).changed = true)
    ∧ (recordData (addComponents cmps s5) ≠ recordData s5 →
        (addComponents cmps s5).changed = true)
    ∧ (s6.changed = false → s6.cache = some cached → cached ≠ ("") →
        generateCss cfg s6 = (cached, s6))
    ∧ ((s7.changed = true ∨ cacheFalsy s7 = true) →
        generateCss cfg s7 =
          (renderCss cfg (recordData s7),
           { s7 with cache := some (renderCss cfg (recordData s7)), changed := false }))
    ∧ ((generateCss cfg s8).2.changed = false
        ∧ generateCss cfg (generateCss cfg s8).2 =
            ((generateCss cfg s8).1, (generateCss cfg s8).2)) := by
  refine ⟨configure_ok_changed mangle hook c s0 s0', ?_, ?_, ?_, ?_, ?_,
    generateCss_cached cfg s6 cached, generateCss_dirty cfg s7, ?_, generateCss_stable cfg s8⟩
  · intro hne
    by_cases hp : (alookup p s1.properties).isSome
    · rw [addProperty_present hook p v s1 hp] at hne
      exact absurd rfl hne
    · have hn : alookup p s1.properties = none := by
        cases hx : alookup p s1.properties
        · rfl
        · simp [hx] at hp
      rw [addProperty_absent hook p v s1 hn]
  · intro hne
    cases props with
    | nil => exact absurd rfl hne
    | cons kv rest =>
      rw [addProperties_cons]
      exact addProperties_changed_mono hook rest _
        (addProperty_changed_mono hook kv.1 kv.2 _ rfl)
  · intro hne
    rcases addPseudoClasses_eq_or_changed pcs s3 with heq | hch
    · rw [heq] at hne
      exact absurd rfl hne
    · exact hch
  · intro hne
    rcases addComponent_eq_or_changed sel chain s4 with heq | hch
    · rw [heq] at hne
      exact absurd rfl hne
    · exact hch
  · intro hne
    rcases addComponents_eq_or_changed cmps s5 with heq | hch
    · rw [heq] at hne
      exact absurd rfl hne
    · exact hch
  · by_cases hcond : (s8.changed || cacheFalsy s8) = true
    · rw [generateCss_dirty cfg s8 (Bool.or_eq_true_iff.mp hcond)]
    · have hch : s8.changed = false := by
        cases h : s8.changed
        · rfl
        · simp [h] at hcond
      have hcf : cacheFalsy s8 = false := by
        cases h : cacheFalsy s8
        · rfl
        · simp [h] at hcond
      cases hcache : s8.cache with
      | none =>
        have : cacheFalsy s8 = true := by
          simp [cacheFalsy, hcache]
          rfl
        rw [this] at hcf
        cases hcf
      | some cc =>
        have hne : cc ≠ ("") := by
          intro h
          subst h
          have : cacheFalsy s8 = true := by
            simp [cacheFalsy, hcache]
            rfl
          rw [this] at hcf
          cases hcf
        rw [generateCss_cached cfg s8 cc hch hcache hne]
        exact hch

/-- Witness for C3: each mutator evaluated at a concrete input that
changes state, plus cached and dirty `generateCss` calls. -/
theorem claim3_witness :
    selectorOnlyRecord.changed = true
    ∧ (addProperty idHook ("margin") ("10px") emptyCssRecord).changed = true
    ∧ (addProperties idHook [(("margin"), ("10px"))] emptyCssRecord).changed = true
    ∧ (addPseudoClasses [("hover")] emptyCssRecord).changed = true
    ∧ (addComponent ("btn") [] emptyCssRecord).changed = true
    ∧ (addComponents [(("btn"), [])] emptyCssRecord).changed = true
    ∧ generateCss plainRenderConfig cachedRecord = ((".x\x7b\x7d\n"), cachedRecord)
    ∧ generateCss plainRenderConfig emptyCssRecord =
        (renderCss plainRenderConfig (recordData emptyCssRecord),
         { emptyCssRecord with
           cache := some (renderCss plainRenderConfig (recordData emptyCssRecord))
           changed := false })
    ∧ ((generateCss plainRenderConfig emptyCssRecord).2.changed = false
        ∧ generateCss plainRenderConfig (generateCss plainRenderConfig emptyCssRecord).2 =
            ((generateCss plainRenderConfig emptyCssRecord).1,
             (generateCss plainRenderConfig emptyCssRecord).2)) := by
  obtain ⟨h0, h1, h2, h3, h4, h5, h6, h7, h8⟩ :=
    claim3_dirty_flag_caching (fun s => s) idHook plainRenderConfig selectorOnlyConfig
      emptyCssRecord selectorOnlyRecord emptyCssRecord emptyCssRecord emptyCssRecord
      emptyCssRecord emptyCssRecord cachedRecord emptyCssRecord emptyCssRecord
      ("margin") ("10px") [(("margin"), ("10px"))] [("hover")] ("btn") [] [(("btn"), [])]
      ((".x\x7b\x7d\n"))
  exact ⟨h0 rfl (by decide), h1 (by decide), h2 (by decide), h3 (by decide),
    h4 (by decide), h5 (by decide), h6 rfl rfl (by decide),
    h7 (Or.inr rfl), h8⟩

theorem recordIdentity_eq_data (r : CssRecord) :
    recordIdentity r = dataIdentity (recordData r) := rfl

theorem mergeInto_identity (m : String × PropsMap) (r : CssRecord) :
    recordIdentity (mergeIntoRecord m r) = recordIdentity r := by
  unfold recordIdentity mergeIntoRecord
  obtain ⟨h1, _, h3, h4, _⟩ := addProperties_skeleton idHook m.2 r
  rw [h1, h3, h4]

theorem mergeInto_cache (m : String × PropsMap) (r : CssRecord) :
    (mergeIntoRecord m r).cache = r.cache :=
  addProperties_cache idHook m.2 r

theorem mergeInto_changed_mono (m : String × PropsMap) (r : CssRecord)
    (h : r.changed = true) :
    (mergeIntoRecord m r).changed = true :=
  addProperties_changed_mono idHook m.2 r h

theorem mergeInto_coversD (scope : Option String) (m : String × PropsMap) (r : CssRecord)
    (hid : recordIdentity r = matchIdentity scope m) :
    CoversD scope (recordData (mergeIntoRecord m r)) m := by
  constructor
  · rw [← recordIdentity_eq_data, mergeInto_identity]
    exact hid
  · intro kv hkv
    exact addProperties_adds_all m.2 r kv hkv

theorem mergeInto_coversD_mono (scope : Option String) (m m' : String × PropsMap)
    (r : CssRecord) (h : CoversD scope (recordData r) m') :
    CoversD scope (recordData (mergeIntoRecord m r)) m' := by
  obtain ⟨h1, h2⟩ := h
  constructor
  · rw [← recordIdentity_eq_data, mergeInto_identity]
    exact h1
  · intro kv hkv
    exact addProperties_lookup_mono idHook m.2 kv.1 r (h2 kv hkv)

theorem mergeInto_data_preserved (m : String × PropsMap) (r : CssRecord)
    (h : ∀ kv ∈ m.2, (alookup kv.1 r.properties).isSome = true) :
    recordData (mergeIntoRecord m r) = recordData r := by
  unfold mergeIntoRecord
  rw [addProperties_all_present idHook m.2 r h]
  by_cases he : m.2.isEmpty
  · simp [he]
  · simp [he]
    rfl

theorem newRecordFor_eq (mangle : String → String) (scope : Option String)
    (m : String × PropsMap) :
    newRecordFor mangle scope m =
      { addProperties idHook m.2
          { emptyCssRecord with
            mangledSelector := some (mangle m.1)
            screenId := none
            selector := some (fullEscape m.1)
            scope := jsOrNone scope
            shouldBeGenerated := true }
        with changed := true } := rfl

theorem newRecordFor_identity (mangle : String → String) (scope : Option String)
    (m : String × PropsMap) :
    recordIdentity (newRecordFor mangle scope m) = matchIdentity scope m := by
  rw [newRecordFor_eq]
  unfold recordIdentity matchIdentity
  obtain ⟨h1, _, h3, h4, _⟩ := addProperties_skeleton idHook m.2
    { emptyCssRecord with
      mangledSelector := some (mangle m.1)
      screenId := none
      selector := some (fullEscape m.1)
      scope := jsOrNone scope
      shouldBeGenerated := true }
  simp only
  rw [h1, h3, h4]

theorem newRecordFor_coversD (mangle : String → String) (scope : Option String)
    (m : String × PropsMap) :
    CoversD scope (recordData (newRecordFor mangle scope m)) m := by
  constructor
  · rw [← recordIdentity_eq_data]
    exact newRecordFor_identity mangle scope m
  · intro kv hkv
    rw [newRecordFor_eq]
    exact addProperties_adds_all m.2 _ kv hkv

theorem newRecordFor_changed (mangle : String → String) (scope : Option String)
    (m : String × PropsMap) :
    (newRecordFor mangle scope m).changed = true := by
  rw [newRecordFor_eq]

theorem newRecordFor_cache (mangle : String → String) (scope : Option String)
    (m : String × PropsMap) :
    (newRecordFor mangle scope m).cache = none := by
  rw [newRecordFor_eq]
  show (addProperties idHook m.2 _).cache = none
  rw [addProperties_cache]
  rfl

theorem addProperty_id_nodup (p v : String) (st : CssRecord)
    (h : (st.properties.map Prod.fst).Nodup) :
    ((addProperty idHook p v st).properties.map Prod.fst).Nodup := by
  by_cases hp : (alookup p st.properties).isSome
  · rw [addProperty_present idHook p v st hp]
    exact h
  · have hn : alookup p st.properties = none := by
      cases hx : alookup p st.properties
      · rfl
      · simp [hx] at hp
    rw [addProperty_absent idHook p v st hn]
    simp only
    rw [show idHook [(p, v)] = [(p, v)] from rfl, spread_singleton_absent p v _ hn]
    have hmem : p ∉ st.properties.map Prod.fst := by
      intro hmem
      obtain ⟨kv, hkv, hfst⟩ := List.mem_map.mp hmem
      exact (alookup_eq_none_iff p st.properties).mp hn kv hkv hfst
    simp [List.nodup_append, h, hmem]

theorem addProperties_id_nodup (props : PropsMap) (st : CssRecord)
    (h : (st.properties.map Prod.fst).Nodup) :
    ((addProperties idHook props st).properties.map Prod.fst).Nodup := by
  induction props generalizing st with
  | nil => exact h
  | cons kv rest ih =>
    rw [addProperties_cons]
    exact ih _ (addProperty_id_nodup kv.1 kv.2 { st with changed := true } h)

theorem mergeInto_props_nodup (m : String × PropsMap) (r : CssRecord)
    (h : (r.properties.map Prod.fst).Nodup) :
    ((mergeIntoRecord m r).properties.map Prod.fst).Nodup :=
  addProperties_id_nodup m.2 r h

theorem newRecordFor_props_nodup (mangle : String → String) (scope : Option String)
    (m : String × PropsMap) :
    ((newRecordFor mangle scope m).properties.map Prod.fst).Nodup := by
  rw [newRecordFor_eq]
  show ((addProperties idHook m.2 _).properties.map Prod.fst).Nodup
  exact addProperties_id_nodup m.2 _ (by simp [emptyCssRecord])

theorem mergeMatch_covers (mangle : String → String) (scope : Option String)
    (m : String × PropsMap) (res : List CssRecord) :
    Covers scope (mergeMatch mangle scope m res) m := by
  induction res with
  | nil =>
    exact ⟨recordData (newRecordFor mangle scope m), by simp [mergeMatch],
      newRecordFor_coversD mangle scope m⟩
  | cons r rs ih =>
    unfold mergeMatch
    by_cases hid : recordIdentity r = matchIdentity scope m
    · rw [if_pos hid]
      exact ⟨recordData (mergeIntoRecord m r), by simp,
        mergeInto_coversD scope m r hid⟩
    · rw [if_neg hid]
      obtain ⟨d, hd, hcov⟩ := ih
      exact ⟨d, by simp at hd ⊢; exact Or.inr hd, hcov⟩

theorem mergeMatch_covers_mono (mangle : String → String) (scope : Option String)
    (m m' : String × PropsMap) (res : List CssRecord)
    (h : Covers scope res m') :
    Covers scope (mergeMatch mangle scope m res) m' := by
  induction res with
  | nil =>
    obtain ⟨d, hd, _⟩ := h
    simp at hd
  | cons r rs ih =>
    obtain ⟨d, hd, hcov⟩ := h
    unfold mergeMatch
    by_cases hid : recordIdentity r = matchIdentity scope m
    · rw [if_pos hid]
      simp only [List.map_cons, List.mem_cons] at hd
      rcases hd with hd | hd
      · exact ⟨recordData (mergeIntoRecord m r), by simp,
          mergeInto_coversD_mono scope m m' r (hd ▸ hcov)⟩
      · exact ⟨d, by simp [hd], hcov⟩
    · rw [if_neg hid]
      simp only [List.map_cons, List.mem_cons] at hd
      rcases hd with hd | hd
      · exact ⟨d, by simp [hd], hcov⟩
      · obtain ⟨d2, hd2, hcov2⟩ := ih ⟨d, hd, hcov⟩
        exact ⟨d2, by simp at hd2 ⊢; exact Or.inr hd2, hcov2⟩

theorem mergeMatch_inv (mangle : String → String) (scope : Option String)
    (m : String × PropsMap) (res : List CssRecord) (h : InvCR res) :
    InvCR (mergeMatch mangle scope m res) := by
  induction res with
  | nil =>
    intro r hr
    simp [mergeMatch] at hr
    rw [hr]
    exact ⟨newRecordFor_changed mangle scope m, newRecordFor_cache mangle scope m⟩
  | cons r0 rs ih =>
    unfold mergeMatch
    by_cases hid : recordIdentity r0 = matchIdentity scope m
    · rw [if_pos hid]
      intro r hr
      rcases List.mem_cons.mp hr with heq | htail
      · obtain ⟨hch, hca⟩ := h r0 (by simp)
        rw [heq]
        exact ⟨mergeInto_changed_mono m r0 hch, (mergeInto_cache m r0).trans hca⟩
      · exact h r (by simp [htail])
    · rw [if_neg hid]
      intro r hr
      rcases List.mem_cons.mp hr with heq | htail
      · rw [heq]
        exact h r0 (by simp)
      · exact ih (fun r hr => h r (by simp [hr])) r htail

theorem mergeMatch_data_preserved (mangle : String → String) (scope : Option String)
    (m : String × PropsMap) (res : List CssRecord)
    (hcov : Covers scope res m) (hnd : NodupIds res) :
    (mergeMatch mangle scope m res).map recordData = res.map recordData := by
  induction res with
  | nil =>
    obtain ⟨d, hd, _⟩ := hcov
    simp at hd
  | cons r rs ih =>
    obtain ⟨d, hd, hcd⟩ := hcov
    unfold mergeMatch
    by_cases hid : recordIdentity r = matchIdentity scope m
    · rw [if_pos hid]
      simp only [List.map_cons, List.mem_cons] at hd
      have hpres : ∀ kv ∈ m.2, (alookup kv.1 r.properties).isSome = true := by
        rcases hd with hd | hd
        · intro kv hkv
          exact (hd ▸ hcd).2 kv hkv
        · exfalso
          obtain ⟨r2, hr2, hr2d⟩ := List.mem_map.mp hd
          have hidr2 : recordIdentity r2 = matchIdentity scope m := by
            rw [recordIdentity_eq_data, hr2d]
            exact hcd.1
          have : recordIdentity r ∈ rs.map recordIdentity := by
            rw [hid, ← hidr2]
            exact List.mem_map.mpr ⟨r2, hr2, rfl⟩
          exact (List.nodup_cons.mp hnd).1 this
      simp only [List.map_cons]
      rw [mergeInto_data_preserved m r hpres]
    · rw [if_neg hid]
      simp only [List.map_cons, List.mem_cons] at hd
      rcases hd with hd | hd
      · exfalso
        exact hid ((recordIdentity_eq_data r).trans (hd ▸ hcd).1)
      · simp only [List.map_cons]
        rw [ih ⟨d, hd, hcd⟩ (List.nodup_cons.mp hnd).2]

theorem mergeMatch_ids_sub (mangle : String → String) (scope : Option String)
    (m : String × PropsMap) (res : List CssRecord) :
    ∀ x ∈ (mergeMatch mangle scope m res).map recordIdentity,
      x ∈ res.map recordIdentity ∨ x = matchIdentity scope m := by
  induction res with
  | nil =>
    intro x hx
    simp [mergeMatch] at hx
    exact Or.inr (by rw [hx, newRecordFor_identity])
  | cons r rs ih =>
    intro x hx
    unfold mergeMatch at hx
    by_cases hid : recordIdentity r = matchIdentity scope m
    · rw [if_pos hid] at hx
      simp only [List.map_cons, List.mem_cons] at hx ⊢
      rcases hx with hx | hx
      · exact Or.inl (Or.inl (by rw [hx, mergeInto_identity]))
      · exact Or.inl (Or.inr hx)
    · rw [if_neg hid] at hx
      simp only [List.map_cons, List.mem_cons] at hx ⊢
      rcases hx with hx | hx
      · exact Or.inl (Or.inl hx)
      · rcases ih x hx with h | h
        · exact Or.inl (Or.inr h)
        · exact Or.inr h

theorem mergeMatch_nodupIds (mangle : String → String) (scope : Option String)
    (m : String × PropsMap) (res : List CssRecord) (h : NodupIds res) :
    NodupIds (mergeMatch mangle scope m res) := by
  induction res with
  | nil =>
    simp [NodupIds, mergeMatch]
  | cons r rs ih =>
    unfold NodupIds mergeMatch
    by_cases hid : recordIdentity r = matchIdentity scope m
    · rw [if_pos hid]
      simp only [List.map_cons]
      rw [mergeInto_identity]
      exact h
    · rw [if_neg hid]
      simp only [List.map_cons]
      rw [List.nodup_cons]
      obtain ⟨hhead, htail⟩ := List.nodup_cons.mp h
      refine ⟨?_, ih htail⟩
      intro hmem
      rcases mergeMatch_ids_sub mangle scope m rs (recordIdentity r) hmem with hin | heq
      · exact hhead hin
      · exact hid heq

theorem mergeMatch_nodupProps (mangle : String → String) (scope : Option String)
    (m : String × PropsMap) (res : List CssRecord) (h : NodupProps res) :
    NodupProps (mergeMatch mangle scope m res) := by
  induction res with
  | nil =>
    intro r hr
    simp [mergeMatch] at hr
    rw [hr]
    exact newRecordFor_props_nodup mangle scope m
  | cons r0 rs ih =>
    unfold mergeMatch
    by_cases hid : recordIdentity r0 = matchIdentity scope m
    · rw [if_pos hid]
      intro r hr
      rcases List.mem_cons.mp hr with heq | htail
      · rw [heq]
        exact mergeInto_props_nodup m r0 (h r0 (by simp))
      · exact h r (by simp [htail])
    · rw [if_neg hid]
      intro r hr
      rcases List.mem_cons.mp hr with heq | htail
      · rw [heq]
        exact h r0 (by simp)
      · exact ih (fun r hr => h r (by simp [hr])) r htail

theorem compileMatches_cons (mangle : String → String) (scope : Option String)
    (m : String × PropsMap) (ms : List (String × PropsMap)) (res : List CssRecord) :
    compileMatches mangle scope (m :: ms) res =
      compileMatches mangle scope ms (mergeMatch mangle scope m res) := rfl

theorem covers_of_mapDataEq (scope : Option String) (res res2 : List CssRecord)
    (m : String × PropsMap) (hmap : res.map recordData = res2.map recordData)
    (h : Covers scope res m) : Covers scope res2 m := by
  unfold Covers at h ⊢
  rw [← hmap]
  exact h

theorem ids_of_mapDataEq (res res2 : List CssRecord)
    (hmap : res.map recordData = res2.map recordData) :
    res.map recordIdentity = res2.map recordIdentity := by
  have h1 : res.map recordIdentity = (res.map recordData).map dataIdentity := by
    rw [List.map_map]
    rfl
  have h2 : res2.map recordIdentity = (res2.map recordData).map dataIdentity := by
    rw [List.map_map]
    rfl
  rw [h1, h2, hmap]

theorem compileMatches_covers_mono (mangle : String → String) (scope : Option String)
    (ms : List (String × PropsMap)) (res : List CssRecord) (m' : String × PropsMap)
    (h : Covers scope res m') :
    Covers scope (compileMatches mangle scope ms res) m' := by
  induction ms generalizing res with
  | nil => exact h
  | cons m rest ih =>
    rw [compileMatches_cons]
    exact ih _ (mergeMatch_covers_mono mangle scope m m' res h)

theorem compileMatches_covers_all (mangle : String → String) (scope : Option String)
    (ms : List (String × PropsMap)) (res : List CssRecord) :
    ∀ m ∈ ms, Covers scope (compileMatches mangle scope ms res) m := by
  induction ms generalizing res with
  | nil => intro m hm; cases hm
  | cons m0 rest ih =>
    intro m hm
    rw [compileMatches_cons]
    rcases List.mem_cons.mp hm with heq | htail
    · subst heq
      exact compileMatches_covers_mono mangle scope rest _ m
        (mergeMatch_covers mangle scope m res)
    · exact ih _ m htail

theorem compileMatches_inv (mangle : String → String) (scope : Option String)
    (ms : List (String × PropsMap)) (res : List CssRecord) (h : InvCR res) :
    InvCR (compileMatches mangle scope ms res) := by
  induction ms generalizing res with
  | nil => exact h
  | cons m rest ih =>
    rw [compileMatches_cons]
    exact ih _ (mergeMatch_inv mangle scope m res h)

theorem compileMatches_nodupIds (mangle : String → String) (scope : Option String)
    (ms : List (String × PropsMap)) (res : List CssRecord) (h : NodupIds res) :
    NodupIds (compileMatches mangle scope ms res) := by
  induction ms generalizing res with
  | nil => exact h
  | cons m rest ih =>
    rw [compileMatches_cons]
    exact ih _ (mergeMatch_nodupIds mangle scope m res h)

theorem compileMatches_nodupProps (mangle : String → String) (scope : Option String)
    (ms : List (String × PropsMap)) (res : List CssRecord) (h : NodupProps res) :
    NodupProps (compileMatches mangle scope ms res) := by
  induction ms generalizing res with
  | nil => exact h
  | cons m rest ih =>
    rw [compileMatches_cons]
    exact ih _ (mergeMatch_nodupProps mangle scope m res h)

theorem compileMatches_data_preserved (mangle : String → String) (scope : Option String)
    (ms : List (String × PropsMap)) (res : List CssRecord)
    (hcov : ∀ m ∈ ms, Covers scope res m) (hnd : NodupIds res) :
    (compileMatches mangle scope ms res).map recordData = res.map recordData := by
  induction ms generalizing res with
  | nil => rfl
  | cons m rest ih =>
    rw [compileMatches_cons]
    have hstep : (mergeMatch mangle scope m res).map recordData = res.map recordData :=
      mergeMatch_data_preserved mangle scope m res (hcov m (by simp)) hnd
    have hnd2 : NodupIds (mergeMatch mangle scope m res) := by
      unfold NodupIds
      rw [ids_of_mapDataEq _ res hstep]
      exact hnd
    have hcov2 : ∀ m' ∈ rest, Covers scope (mergeMatch mangle scope m res) m' :=
      fun m' hm' => covers_of_mapDataEq scope res _ m' hstep.symm (hcov m' (by simp [hm']))
    rw [ih _ hcov2 hnd2, hstep]

theorem resultGenerateCss_cons (cfg : RenderConfig) (r : CssRecord) (rs : List CssRecord) :
    resultGenerateCss cfg (r :: rs) =
      (if r.shouldBeGenerated
       then (generateCss cfg r).1 ++ resultGenerateCss cfg rs
       else resultGenerateCss cfg rs) := by
  unfold resultGenerateCss
  by_cases hg : r.shouldBeGenerated <;> simp [List.filter, hg, concatAll]

theorem resultGenerateCss_congr (cfg : RenderConfig) (res res2 : List CssRecord)
    (hmap : res.map recordData = res2.map recordData)
    (h1 : InvCR res) (h2 : InvCR res2) :
    resultGenerateCss cfg res = resultGenerateCss cfg res2 := by
  induction res generalizing res2 with
  | nil =>
    have : res2 = [] := List.map_eq_nil_iff.mp (by rw [← hmap]; rfl)
    rw [this]
  | cons r rs ih =>
    cases res2 with
    | nil => simp at hmap
    | cons r2 rs2 =>
      simp only [List.map_cons, List.cons.injEq] at hmap
      obtain ⟨hd, htl⟩ := hmap
      rw [resultGenerateCss_cons, resultGenerateCss_cons]
      have hflag : r.shouldBeGenerated = r2.shouldBeGenerated := by
        have : (recordData r).shouldBeGenerated = (recordData r2).shouldBeGenerated := by
          rw [hd]
        exact this
      have htails : resultGenerateCss cfg rs = resultGenerateCss cfg rs2 :=
        ih rs2 htl (fun r hr => h1 r (by simp [hr]))
          (fun r hr => h2 r (by simp [hr]))
      have hheads : (generateCss cfg r).1 = (generateCss cfg r2).1 := by
        rw [generateCss_dirty cfg r (Or.inl (h1 r (by simp)).1),
          generateCss_dirty cfg r2 (Or.inl (h2 r2 (by simp)).1)]
        simp only
        rw [hd]
      rw [hflag, htails, hheads]

/-- C2: compiling the same content a second time into the result of the
first compile changes no record's data, creates no duplicate records
(identities stay pairwise distinct) and no duplicate properties (each
record's keys stay pairwise distinct), and the CSS rendered from the
twice-compiled result equals the CSS rendered after a single compile. -/
theorem claim2_compile_idempotent (mangle : String → String) (scope : Option String)
    (handlers : List HandlerFn) (content : String) (cfg : RenderConfig) :
    ((compileContent mangle scope handlers content
        (compileContent mangle scope handlers content [])).map recordData
      = (compileContent mangle scope handlers content []).map recordData)
    ∧ resultGenerateCss cfg (compileContent mangle scope handlers content
        (compileContent mangle scope handlers content []))
      = resultGenerateCss cfg (compileContent mangle scope handlers content [])
    ∧ ((compileContent mangle scope handlers content
        (compileContent mangle scope handlers content [])).map recordIdentity).Nodup
    ∧ ∀ r ∈ compileContent mangle scope handlers content
        (compileContent mangle scope handlers content []),
      (r.properties.map Prod.fst).Nodup := by
  unfold compileContent
  set ms := findMacroMatches handlers content with hms
  set r1 := compileMatches mangle scope ms [] with hr1
  have hinv1 : InvCR r1 := compileMatches_inv mangle scope ms [] (fun r hr => by cases hr)
  have hnd1 : NodupIds r1 :=
    compileMatches_nodupIds mangle scope ms [] (by simp [NodupIds])
  have hnp1 : NodupProps r1 :=
    compileMatches_nodupProps mangle scope ms [] (fun r hr => by cases hr)
  have hcov1 : ∀ m ∈ ms, Covers scope r1 m := compileMatches_covers_all mangle scope ms []
  have hdata : (compileMatches mangle scope ms r1).map recordData = r1.map recordData :=
    compileMatches_data_preserved mangle scope ms r1 hcov1 hnd1
  have hinv2 : InvCR (compileMatches mangle scope ms r1) :=
    compileMatches_inv mangle scope ms r1 hinv1
  refine ⟨hdata, ?_, ?_, ?_⟩
  · exact resultGenerateCss_congr cfg _ r1 hdata hinv2 hinv1
  · show NodupIds (compileMatches mangle scope ms r1)
    exact compileMatches_nodupIds mangle scope ms r1 hnd1
  · exact compileMatches_nodupProps mangle scope ms r1 hnp1
